import Mathlib

/-!
# Verification of the distillation dual-encoder ranker training core

Shallow embedding of `src/models/distill_dual_ranker.py`.

Real-valued tensors are modelled entrywise over `ℚ` (exact arithmetic for the
finite values the score pipeline manipulates).  The sentinel `float('-inf')`
written into the diagonal by `Tensor.fill_diagonal_` is modelled as `⊥` in
`WithBot ℚ`; `Tensor.max(dim=1)` over a row that may contain this sentinel is
the lattice supremum in `WithBot ℚ`.  The transcendental kernels
(`log_softmax`, `KLDivLoss`) are never evaluated numerically: the claims about
them concern only which matrices flow into them, which the step trace records
exactly as the source computes them.
-/

namespace DistillDualRanker

/-- A `B×B` score matrix (`torch.matmul(query_embeds, doc_embeds.t())`). -/
abbrev Mat (B : ℕ) : Type := Fin B → Fin B → ℚ

/-- `student_scores.fill_diagonal_(float('-inf'))` (line 154): the diagonal is
overwritten with the `-inf` sentinel (`⊥`), other entries kept. -/
def maskDiag {B : ℕ} (M : Mat B) : Fin B → Fin B → WithBot ℚ :=
  fun i j => if i = j then ⊥ else (M i j : WithBot ℚ)

/-- `row.max()` (`Tensor.max(dim=1)[0]` applied to one row, line 154): maximum
of a row whose entries may hold the `-inf` sentinel. -/
def rowMaxW {B : ℕ} (r : Fin B → WithBot ℚ) : WithBot ℚ :=
  Finset.univ.sup r

/-- One summand of `torch.nn.MarginRankingLoss(margin=1.0)` at target `+1`
(lines 136 and 157): `clamp(margin - (pos - neg), min=0)`.  When `neg` is the
`-inf` sentinel, IEEE arithmetic gives `margin - (pos - (-inf)) = -inf`, which
the clamp sends to `0`; that is the `⊥` branch. -/
def hinge (margin pos : ℚ) : WithBot ℚ → ℚ :=
  WithBot.recBotCoe 0 (fun q => max 0 (margin - (pos - q)))

/-- `student_scores.diag()` (line 153). -/
def posScore {B : ℕ} (M : Mat B) (i : Fin B) : ℚ := M i i

/-- `student_scores.fill_diagonal_(float('-inf')).max(dim=1)[0]` (line 154):
row-wise maximum after the diagonal has been masked to `-inf`. -/
def negScore {B : ℕ} (M : Mat B) (i : Fin B) : WithBot ℚ :=
  rowMaxW (maskDiag M i)

/-- `loss_fn(positive_scores, negative_scores, targets)` with
`MarginRankingLoss(margin=1.0)` and `targets = ones` (lines 156-157):
the mean over the batch of the per-example hinge. -/
def rankingLossOf {B : ℕ} (M : Mat B) : ℚ :=
  (∑ i, hinge 1 (posScore M i) (negScore M i)) / (B : ℚ)

/-- `scores = torch.matmul(query_embeds, doc_embeds.t())` (line 103): the
dual-encoder score matrix, a raw inner product of every query representation
with every document representation.  The source performs no batch-size check,
so the result is defined for any pair of batch sizes `B1`, `B2`. -/
def dualForward {B1 B2 D : ℕ} (qe : Fin B1 → Fin D → ℚ)
    (de : Fin B2 → Fin D → ℚ) : Fin B1 → Fin B2 → ℚ :=
  fun i j => ∑ k, qe i k * de j k

/-- Intermediate values of one loss computation of the training loop
(lines 153-161), in the order the source computes them. -/
structure StepTrace (B : ℕ) where
  /-- `teacher_scores` as produced by the teacher forward pass (line 150). -/
  teacherScores : Mat B
  /-- `student_scores` as produced by the student forward pass (line 152),
  before any mutation. -/
  studentScoresOrig : Mat B
  /-- `positive_scores = student_scores.diag()` (line 153). -/
  positiveScores : Fin B → ℚ
  /-- The tensor after `student_scores.fill_diagonal_(float('-inf'))`
  (line 154).  `fill_diagonal_` mutates in place and returns `self`, so the
  Python name `student_scores` now denotes this masked matrix. -/
  maskedStudent : Fin B → Fin B → WithBot ℚ
  /-- `negative_scores` (line 154): row-max of the masked matrix. -/
  negativeScores : Fin B → WithBot ℚ
  /-- `ranking_loss` (line 157). -/
  rankingLoss : ℚ
  /-- The matrix fed to `F.log_softmax(teacher_scores / temperature, dim=1)`
  (line 159): the teacher matrix, never masked, divided by the temperature. -/
  distillTeacherInput : Fin B → Fin B → ℚ
  /-- The matrix fed to `F.log_softmax(student_scores / temperature, dim=1)`
  (line 160).  Because `fill_diagonal_` mutated the tensor in place, this is
  the MASKED matrix divided by the temperature (`-inf / T = -inf` for the
  positive temperature hyperparameter), not the original student scores. -/
  distillStudentInput : Fin B → Fin B → WithBot ℚ

/-- The loss computation of one training batch step (lines 153-161),
translated statement by statement.  `temp` is the temperature. -/
def lossTrace {B : ℕ} (temp : ℚ) (teacher student : Mat B) : StepTrace B :=
  let positive := fun i => posScore student i
  let masked := maskDiag student
  let negative := fun i => rowMaxW (masked i)
  let ranking := (∑ i, hinge 1 (positive i) (negative i)) / (B : ℚ)
  { teacherScores := teacher
    studentScoresOrig := student
    positiveScores := positive
    maskedStudent := masked
    negativeScores := negative
    rankingLoss := ranking
    distillTeacherInput := fun i j => teacher i j / temp
    distillStudentInput := fun i j => (masked i j).map (· / temp) }

/-- `loss = alpha * ranking_loss + (1 - alpha) * distillation_loss`
(line 163). -/
def combinedLoss (alpha r d : ℚ) : ℚ := alpha * r + (1 - alpha) * d

/-- The spec's off-diagonal row maximum: the maximum over row `i` excluding
the diagonal entry.  (For `B ≥ 2` the erased row is nonempty and the default
`0` of `unbot'` is never used.) -/
def offDiagMax {B : ℕ} (M : Mat B) (i : Fin B) : ℚ :=
  ((Finset.univ.erase i).sup fun j => ((M i j : ℚ) : WithBot ℚ)).unbot' 0

/-- A score matrix of some batch-dependent size, as returned by a forward
pass of a `DualEncoderModel`. -/
abbrev Scores : Type := Σ B : ℕ, Mat B

/-- A floating-point scalar as the training loop's loss values see it:
finite, an infinity, or `NaN` (the value `KLDivLoss` produces when a row of
the student log-softmax input is entirely `-inf`, as happens for `B = 1`). -/
inductive FPVal : Type
  | nan : FPVal
  | pinf : FPVal
  | ninf : FPVal
  | fin (q : ℚ) : FPVal
deriving DecidableEq

/-- IEEE-style addition on `FPVal` (`total_loss += loss.item()`, line 170):
`NaN` propagates, opposite infinities give `NaN`. -/
def FPVal.add : FPVal → FPVal → FPVal
  | nan, _ => nan
  | _, nan => nan
  | pinf, ninf => nan
  | ninf, pinf => nan
  | pinf, _ => pinf
  | _, pinf => pinf
  | ninf, _ => ninf
  | _, ninf => ninf
  | fin a, fin b => fin (a + b)

/-- Whether an `FPVal` is finite (`torch.isfinite`). -/
def FPVal.isFinite : FPVal → Bool
  | fin _ => true
  | _ => false

/-- One element yielded by a `DataLoader` over a `DualEncoderDataset`
(lines 145-147): tokenized query inputs, tokenized document inputs, and the
relevance labels.  All three are moved to the device; the loss computation
reads only the first two. -/
structure Batch (I L : Type) where
  queryInputs : I
  docInputs : I
  labels : L

/-- The collaborators the training loop composes (lines 125-137): the two
encoder-backed forward passes, the loss composer, autograd, and the
optimizer.  `P`/`TP` are the student/teacher parameter spaces, `I` the
tokenized-input space, `V` the loss-value space, `G` the gradient space.
`optApply` consumes only student parameters, translating
`AdamW(model.parameters(), lr=learning_rate)` (line 132): the optimizer is
constructed over the student's parameters alone. -/
structure TrainEnv (P TP I V G : Type) where
  /-- `teacher_scores = teacher_model(query_inputs, doc_inputs)` under
  `torch.no_grad()` (lines 149-150): a pure read of the teacher parameters. -/
  teacherForward : TP → I → I → Scores
  /-- `student_scores = model(query_inputs, doc_inputs)` (line 152). -/
  studentForward : P → I → I → Scores
  /-- Lines 153-163: the combined ranking+distillation loss from the two
  score matrices (`alpha` and `temperature` are fixed for the run). -/
  composeLoss : Scores → Scores → V
  /-- `loss.backward()` (line 166): gradients of the loss w.r.t. the
  student parameters. -/
  backward : P → V → G
  /-- `optimizer.step()` (line 167): applies gradients to the student
  parameters. -/
  optApply : P → G → P
  /-- `total_loss += loss.item()` (line 170): accumulation on loss values. -/
  vAdd : V → V → V

/-- The mutable state of one training invocation. -/
structure LoopState (P TP V : Type) where
  studentParams : P
  teacherParams : TP
  /-- Number of `optimizer.step()` calls performed. -/
  optimizerSteps : ℕ
  /-- The learning-rate scheduler's internal step counter
  (`scheduler.step()`, line 168). -/
  schedulerSteps : ℕ
  /-- `total_loss` (lines 142 and 170). -/
  runningLoss : V

/-- The forward/loss/backward/optimizer part of one batch iteration
(lines 145-167): both forward passes, the loss, `optimizer.zero_grad()`,
`loss.backward()`, `optimizer.step()`, and the loss accumulation.  The
source has no conditional anywhere in this block: the update is applied
whatever the loss value is. -/
def optimizerPhase {P TP I V G L : Type} (env : TrainEnv P TP I V G)
    (s : LoopState P TP V) (b : Batch I L) : LoopState P TP V :=
  let ts := env.teacherForward s.teacherParams b.queryInputs b.docInputs
  let ss := env.studentForward s.studentParams b.queryInputs b.docInputs
  let loss := env.composeLoss ts ss
  { s with
    studentParams := env.optApply s.studentParams (env.backward s.studentParams loss)
    optimizerSteps := s.optimizerSteps + 1
    runningLoss := env.vAdd s.runningLoss loss }

/-- `scheduler.step()` (line 168): advances the scheduler's step counter. -/
def schedulerPhase {P TP V : Type} (s : LoopState P TP V) : LoopState P TP V :=
  { s with schedulerSteps := s.schedulerSteps + 1 }

/-- One full batch iteration of the inner loop: the scheduler step runs
strictly after the optimizer step (lines 167-168). -/
def batchStep {P TP I V G L : Type} (env : TrainEnv P TP I V G)
    (s : LoopState P TP V) (b : Batch I L) : LoopState P TP V :=
  schedulerPhase (optimizerPhase env s b)

/-- One epoch of the inner loop (lines 144-171): the batch steps in loader
order. -/
def epochRun {P TP I V G L : Type} (env : TrainEnv P TP I V G)
    (bs : List (Batch I L)) (s : LoopState P TP V) : LoopState P TP V :=
  bs.foldl (batchStep env) s

/-- `evaluate(model, val_loader, device, loss_fn)` (lines 178-206): under
`torch.no_grad()`, for each validation batch run the student forward pass,
take the positive/negative scores, apply the margin ranking loss, and
accumulate a local total; report `total_loss / len(val_loader)`.  The body
never assigns to a parameter, so the state passes through unchanged; the
teacher model is not an argument and the distillation term is not computed. -/
def evaluateRun {P TP I V G L : Type} (env : TrainEnv P TP I V G)
    (s : LoopState P TP V) (bs : List (Batch I L)) : LoopState P TP V × ℚ :=
  (s,
    (bs.foldl
      (fun acc b =>
        acc + rankingLossOf (env.studentForward s.studentParams b.queryInputs b.docInputs).2)
      0) / (bs.length : ℚ))

/-- The whole training invocation (lines 139-176): for each epoch, run the
inner loop over the training batches, then evaluate on the validation
batches. -/
def trainRun {P TP I V G L : Type} (env : TrainEnv P TP I V G)
    (bs vbs : List (Batch I L)) : ℕ → LoopState P TP V → LoopState P TP V
  | 0, s => s
  | e + 1, s => trainRun env bs vbs e (evaluateRun env (epochRun env bs s) vbs).1

/-- `total_steps = len(train_loader) * epochs` (line 133). -/
def totalSteps (numBatchesPerEpoch epochs : ℕ) : ℕ :=
  numBatchesPerEpoch * epochs

/-- Modelled from the spec: `get_linear_schedule_with_warmup(optimizer,
num_warmup_steps=0, num_training_steps=total_steps)` (line 134) is an
external collaborator (the `transformers` library, not in this repository);
the spec describes it as a schedule that "linearly decays from the configured
rate to zero over `epochs × num_batches_per_epoch` total steps with zero
warmup steps".  With zero warmup steps there is no warmup branch; the decay
factor at scheduler step `s` is `max 0 ((total - s) / total)`. -/
def lrFactor (total step : ℕ) : ℚ :=
  max 0 (((total : ℚ) - (step : ℚ)) / (total : ℚ))

/-- The learning rate at scheduler step `s` under the schedule of line 134:
the configured rate times the decay factor. -/
def scheduledLR (lr0 : ℚ) (total step : ℕ) : ℚ :=
  lr0 * lrFactor total step


/-! ## Helper lemmas -/

/-- For a batch with at least two examples, the row-max of the masked row is
exactly the off-diagonal row maximum (the `-inf` diagonal never wins). -/
lemma negScore_eq_offDiagMax {B : ℕ} (M : Mat B) (i : Fin B) (hB : 2 ≤ B) :
    negScore M i = ((offDiagMax M i : ℚ) : WithBot ℚ) := by
  have hne : (Finset.univ.erase i).Nonempty := by
    rw [← Finset.card_pos, Finset.card_erase_of_mem (Finset.mem_univ i),
      Finset.card_univ, Fintype.card_fin]
    omega
  have h1 : negScore M i
      = (Finset.univ.erase i).sup (fun j => ((M i j : ℚ) : WithBot ℚ)) := by
    unfold negScore rowMaxW maskDiag
    nth_rewrite 1 [← Finset.insert_erase (Finset.mem_univ i)]
    rw [Finset.sup_insert, if_pos rfl, bot_sup_eq]
    refine Finset.sup_congr rfl fun j hj => ?_
    rw [if_neg fun h => (Finset.mem_erase.mp hj).1 h.symm]
  have h2 : ((Finset.univ.erase i).sup fun j => ((M i j : ℚ) : WithBot ℚ))
      = ((((Finset.univ.erase i).sup' hne fun j => M i j) : ℚ) : WithBot ℚ) := by
    rw [Finset.coe_sup' hne]
    rfl
  rw [h1, h2]
  unfold offDiagMax
  rw [h2, WithBot.unbot'_coe]

/-- Folding `acc + f x` over a list starting from `a` gives `a` plus the sum
of the mapped list. -/
lemma foldl_add_eq_sum {X : Type} (f : X → ℚ) (l : List X) (a : ℚ) :
    l.foldl (fun acc x => acc + f x) a = a + (l.map f).sum := by
  induction l generalizing a with
  | nil => simp
  | cons x xs ih => simp [ih, add_assoc]

lemma batchStep_teacherParams {P TP I V G L : Type} (env : TrainEnv P TP I V G)
    (s : LoopState P TP V) (b : Batch I L) :
    (batchStep env s b).teacherParams = s.teacherParams := rfl

lemma epochRun_teacherParams {P TP I V G L : Type} (env : TrainEnv P TP I V G)
    (bs : List (Batch I L)) (s : LoopState P TP V) :
    (epochRun env bs s).teacherParams = s.teacherParams := by
  induction bs generalizing s with
  | nil => rfl
  | cons b bs ih => rw [epochRun, List.foldl_cons, ← epochRun, ih, batchStep_teacherParams]

lemma batchStep_schedulerSteps {P TP I V G L : Type} (env : TrainEnv P TP I V G)
    (s : LoopState P TP V) (b : Batch I L) :
    (batchStep env s b).schedulerSteps = s.schedulerSteps + 1 := rfl

lemma epochRun_schedulerSteps {P TP I V G L : Type} (env : TrainEnv P TP I V G)
    (bs : List (Batch I L)) (s : LoopState P TP V) :
    (epochRun env bs s).schedulerSteps = s.schedulerSteps + bs.length := by
  induction bs generalizing s with
  | nil => rfl
  | cons b bs ih =>
      rw [epochRun, List.foldl_cons, ← epochRun, ih, batchStep_schedulerSteps,
        List.length_cons]
      omega

lemma trainRun_schedulerSteps {P TP I V G L : Type} (env : TrainEnv P TP I V G)
    (bs vbs : List (Batch I L)) (E : ℕ) (s : LoopState P TP V) :
    (trainRun env bs vbs E s).schedulerSteps
      = s.schedulerSteps + totalSteps bs.length E := by
  induction E generalizing s with
  | zero => simp [trainRun, totalSteps]
  | succ e ih =>
      simp only [trainRun]
      rw [ih]
      have : ((evaluateRun env (epochRun env bs s) vbs).1).schedulerSteps
          = s.schedulerSteps + bs.length := epochRun_schedulerSteps env bs s
      rw [this]
      unfold totalSteps
      ring

/-- Agreement of two batches on everything the loss computation reads: the
tokenized query inputs and the tokenized document inputs (but not the
labels). -/
def InputsEq {I L : Type} (b b' : Batch I L) : Prop :=
  b.queryInputs = b'.queryInputs ∧ b.docInputs = b'.docInputs

lemma batchStep_congr_inputs {P TP I V G L : Type} (env : TrainEnv P TP I V G)
    (s : LoopState P TP V) {b b' : Batch I L} (h : InputsEq b b') :
    batchStep env s b = batchStep env s b' := by
  unfold batchStep optimizerPhase
  rw [h.1, h.2]

lemma epochRun_congr_inputs {P TP I V G L : Type} (env : TrainEnv P TP I V G)
    {bs bs' : List (Batch I L)} (h : List.Forall₂ InputsEq bs bs') :
    ∀ s : LoopState P TP V, epochRun env bs s = epochRun env bs' s := by
  induction h with
  | nil => intro s; rfl
  | cons hbb htail ih =>
      intro s
      rw [epochRun, epochRun, List.foldl_cons, List.foldl_cons,
        batchStep_congr_inputs env s hbb]
      exact ih _

lemma evalFold_congr_inputs {P I L : Type} (f : P → I → I → Scores) (p : P)
    {l l' : List (Batch I L)} (h : List.Forall₂ InputsEq l l') :
    ∀ acc : ℚ,
      l.foldl (fun acc b => acc + rankingLossOf (f p b.queryInputs b.docInputs).2) acc
        = l'.foldl (fun acc b => acc + rankingLossOf (f p b.queryInputs b.docInputs).2) acc := by
  induction h with
  | nil => intro acc; rfl
  | cons hbb htail ih =>
      intro acc
      rw [List.foldl_cons, List.foldl_cons, hbb.1, hbb.2]
      exact ih _

/-! ## Concrete fixtures used by closed theorems and witnesses -/

/-- A 2×2 teacher score matrix. -/
def Mt2 : Mat 2 := ![![1, 2], ![3, 4]]

/-- A 2×2 student score matrix. -/
def Ms2 : Mat 2 := ![![5, 6], ![7, 8]]

/-- The 1×1 student score matrix of a batch of size 1. -/
def M1 : Mat 1 := fun _ _ => 5

/-- A 2×2 student score matrix for the ranking-loss formula witness. -/
def M4 : Mat 2 := ![![5, 1], ![0, 3]]

/-- A batch with relevance label `0`. -/
def bL0 : Batch Unit ℚ := { queryInputs := (), docInputs := (), labels := 0 }

/-- A batch identical to `bL0` except for its relevance label. -/
def bL1 : Batch Unit ℚ := { queryInputs := (), docInputs := (), labels := 1 }

/-- A concrete loop state: student parameter `0`, teacher parameter `7`. -/
def sW : LoopState ℚ ℚ FPVal :=
  { studentParams := 0, teacherParams := 7, optimizerSteps := 0,
    schedulerSteps := 0, runningLoss := FPVal.fin 0 }

/-- A concrete environment whose composed loss is `NaN`, as the source
produces for a batch of size 1 (the student log-softmax input row is all
`-inf`, so `KLDivLoss` yields `NaN`); its optimizer update adds the gradient
`1` to the student parameter. -/
def envNaN : TrainEnv ℚ ℚ Unit FPVal ℚ :=
  { teacherForward := fun _ _ _ => ⟨1, M1⟩
    studentForward := fun _ _ _ => ⟨1, M1⟩
    composeLoss := fun _ _ => FPVal.nan
    backward := fun _ _ => 1
    optApply := fun p g => p + g
    vAdd := FPVal.add }

/-- Query-side representations for a batch of size 1 (hidden size 2). -/
def qe1 : Fin 1 → Fin 2 → ℚ := ![![1, 2]]

/-- Document-side representations for a batch of size 2 (hidden size 2). -/
def de2 : Fin 2 → Fin 2 → ℚ := ![![3, 4], ![5, 6]]

/-! ## Claim theorems -/

/-- C1: the claim states that the distillation log-softmax is applied to the
original, unmasked `B×B` matrices and that the diagonal masking for negative
extraction does not affect them.  The code refutes this: `fill_diagonal_`
mutates `student_scores` in place on line 154, so the matrix handed to
`F.log_softmax(student_scores / temperature)` on line 160 carries a `-inf`
diagonal.  Evaluated on concrete 2×2 matrices: the teacher input is the
unmasked scaled teacher matrix, but the student input has `-inf` (`⊥`) on
the diagonal, keeps only the off-diagonal scaled entries, and differs from
the unmasked scaled student matrix. -/
theorem distill_softmax_consumes_masked_student_matrix :
    (lossTrace 2 Mt2 Ms2).distillTeacherInput = (fun i j => Mt2 i j / 2) ∧
    (lossTrace 2 Mt2 Ms2).distillStudentInput 0 0 = ⊥ ∧
    (lossTrace 2 Mt2 Ms2).distillStudentInput 1 1 = ⊥ ∧
    (lossTrace 2 Mt2 Ms2).distillStudentInput 0 1 = ((Ms2 0 1 / 2 : ℚ) : WithBot ℚ) ∧
    (lossTrace 2 Mt2 Ms2).distillStudentInput
      ≠ (fun i j => ((Ms2 i j / 2 : ℚ) : WithBot ℚ)) := by
  refine ⟨rfl, rfl, rfl, rfl, fun h => ?_⟩
  have h00 := congrFun (congrFun h 0) 0
  simp only [lossTrace, maskDiag, if_pos rfl, WithBot.map_bot] at h00
  exact WithBot.bot_ne_coe h00

/-- C2: the claim states that a batch of size 1 is detected as degenerate and
skipped with no parameter update.  The code refutes this: for `B = 1` the
masked row-max is indeed `-inf` (`⊥`, no in-batch negative exists), but the
training loop (lines 145-171) contains no detection or skip — evaluated on a
concrete singleton batch, the batch step still increments the optimizer step
count, changes the student parameter, and folds the `NaN` loss into the
running total. -/
theorem degenerate_singleton_batch_not_skipped :
    negScore M1 0 = ⊥ ∧
    (lossTrace 2 M1 M1).negativeScores 0 = ⊥ ∧
    (lossTrace 2 M1 M1).rankingLoss = 0 ∧
    (batchStep envNaN sW bL0).optimizerSteps = sW.optimizerSteps + 1 ∧
    (batchStep envNaN sW bL0).studentParams ≠ sW.studentParams ∧
    (batchStep envNaN sW bL0).runningLoss = FPVal.nan := by
  refine ⟨rfl, rfl, ?_, rfl, ?_, rfl⟩
  · show (∑ i : Fin 1, hinge 1 (posScore M1 i) (negScore M1 i)) / ((1 : ℕ) : ℚ) = 0
    norm_num [hinge, negScore, rowMaxW, maskDiag, M1, posScore]
  · show (0 : ℚ) + 1 ≠ 0
    norm_num

/-- C3: the claim states that a batch step with a non-finite combined loss
skips the parameter update and logs the anomaly.  The code refutes this: the
step sequence `zero_grad; backward; step; scheduler.step` (lines 165-168) is
unconditional in the loss value.  Evaluated on an environment whose composed
loss is `NaN`: the loss is non-finite, yet the optimizer and scheduler step
counts advance, the student parameter changes, and the `NaN` is accumulated
into the running loss. -/
theorem nonfinite_loss_step_not_skipped :
    (envNaN.composeLoss ⟨1, M1⟩ ⟨1, M1⟩).isFinite = false ∧
    (batchStep envNaN sW bL1).optimizerSteps = sW.optimizerSteps + 1 ∧
    (batchStep envNaN sW bL1).schedulerSteps = sW.schedulerSteps + 1 ∧
    (batchStep envNaN sW bL1).studentParams ≠ sW.studentParams ∧
    (batchStep envNaN sW bL1).runningLoss = FPVal.nan := by
  refine ⟨rfl, rfl, rfl, ?_, rfl⟩
  show (0 : ℚ) + 1 ≠ 0
  norm_num

/-- C4: for every `B×B` student score matrix with `B ≥ 2`, the ranking loss
computed by lines 153-157 equals `mean_i max(0, 1 - (pos_i - neg_i))`, where
`pos_i` is the diagonal entry and `neg_i` is the off-diagonal row maximum
(the `-inf` written into the diagonal never being selected). -/
theorem ranking_loss_margin_formula {B : ℕ} (M : Mat B) (hB : 2 ≤ B) :
    rankingLossOf M = (∑ i, max 0 (1 - (M i i - offDiagMax M i))) / (B : ℚ) := by
  unfold rankingLossOf
  congr 1
  refine Finset.sum_congr rfl fun i _ => ?_
  rw [negScore_eq_offDiagMax M i hB]
  rfl

/-- Witness for C4 at the concrete matrix `M4` (`B = 2`). -/
theorem ranking_loss_margin_formula_witness :
    2 ≤ 2 ∧
    rankingLossOf M4 = (∑ i, max 0 (1 - (M4 i i - offDiagMax M4 i))) / ((2 : ℕ) : ℚ) :=
  ⟨by norm_num, ranking_loss_margin_formula M4 (by norm_num)⟩

/-- C5: the claim states that the scorer's forward pass fails with
`ShapeMismatch` when the two input batches have different batch sizes.  The
code refutes this: `forward` (lines 81-105) performs no batch-size check and
`torch.matmul` of a `1×D` by a `D×2` operand is well-defined, so the pass
succeeds and returns a non-square `1×2` score matrix.  Evaluated at concrete
mismatched batches of sizes 1 and 2. -/
theorem mismatched_batch_forward_returns_nonsquare :
    dualForward qe1 de2 = ![![11, 17]] := by
  funext i j
  fin_cases i
  fin_cases j <;>
    norm_num [dualForward, Fin.sum_univ_two, qe1, de2]

/-- C6: the combined loss of line 163 equals `α·L_rank + (1-α)·L_distill`
for every `α ∈ [0,1]`; at `α = 1` it is exactly the ranking loss and at
`α = 0` exactly the distillation loss. -/
theorem combined_loss_affine_blend (alpha r d : ℚ) (_h0 : 0 ≤ alpha)
    (_h1 : alpha ≤ 1) :
    combinedLoss alpha r d = alpha * r + (1 - alpha) * d ∧
    combinedLoss 1 r d = r ∧
    combinedLoss 0 r d = d := by
  refine ⟨rfl, ?_, ?_⟩ <;> simp [combinedLoss]

/-- Witness for C6 at `α = 1/2`, `L_rank = 3`, `L_distill = 5`. -/
theorem combined_loss_affine_blend_witness :
    (0 ≤ (1 / 2 : ℚ) ∧ (1 / 2 : ℚ) ≤ 1) ∧
    (combinedLoss (1 / 2) 3 5 = (1 / 2) * 3 + (1 - 1 / 2) * 5 ∧
      combinedLoss 1 3 5 = 3 ∧ combinedLoss 0 3 5 = 5) :=
  ⟨⟨by norm_num, by norm_num⟩,
    combined_loss_affine_blend (1 / 2) 3 5 (by norm_num) (by norm_num)⟩

/-- C7: teacher parameters are immutable for the whole run: the optimizer
only ever receives the student parameters (`optApply`, translating
`AdamW(model.parameters())` of line 132), the teacher forward pass is a pure
read (lines 149-150), and the full training run — every batch step of every
epoch plus every evaluation — leaves the teacher parameters of the loop
state exactly as they were at initialization. -/
theorem teacher_params_immutable_throughout_run {P TP I V G L : Type}
    (env : TrainEnv P TP I V G) (bs vbs : List (Batch I L)) (E : ℕ)
    (s : LoopState P TP V) :
    (trainRun env bs vbs E s).teacherParams = s.teacherParams := by
  induction E generalizing s with
  | zero => rfl
  | succ e ih =>
      simp only [trainRun]
      rw [ih]
      exact epochRun_teacherParams env bs s

/-- C8: evaluation over the held-out split returns the training state
completely unchanged (no student or teacher parameter is mutated), its
reported number is exactly the mean over the validation batches of the
margin ranking loss alone (lines 178-206: no distillation term appears), and
it does not read the teacher parameters at all (replacing them changes
nothing). -/
theorem evaluate_ranking_only_and_no_mutation {P TP I V G L : Type}
    (env : TrainEnv P TP I V G) (s : LoopState P TP V) (bs : List (Batch I L)) :
    (evaluateRun env s bs).1 = s ∧
    (evaluateRun env s bs).2 =
      ((bs.map fun b =>
          rankingLossOf (env.studentForward s.studentParams b.queryInputs b.docInputs).2).sum)
        / (bs.length : ℚ) ∧
    (∀ tp : TP,
      (evaluateRun env { s with teacherParams := tp } bs).2
        = (evaluateRun env s bs).2) := by
  refine ⟨rfl, ?_, fun tp => rfl⟩
  unfold evaluateRun
  rw [foldl_add_eq_sum]
  simp

/-- C9: the learning-rate schedule of line 134 has zero warmup and
`len(train_loader) × epochs` total steps; it starts at the configured rate at
step 0, decays linearly (`lr0 · (T-k)/T` for `k ≤ T`), and reaches zero at
the final step.  In the loop, each batch step advances the scheduler counter
exactly once, strictly after the optimizer step (`batchStep` is the
scheduler phase applied after the optimizer phase), and a full run advances
it exactly `totalSteps` times. -/
theorem lr_schedule_linear_decay_and_step_order {P TP I V G L : Type}
    (env : TrainEnv P TP I V G) (bs vbs : List (Batch I L)) (E : ℕ)
    (s : LoopState P TP V) (b : Batch I L) (lr0 : ℚ) (T k : ℕ)
    (hT : 0 < T) (hk : k ≤ T) :
    scheduledLR lr0 T 0 = lr0 ∧
    scheduledLR lr0 T T = 0 ∧
    scheduledLR lr0 T k = lr0 * (((T : ℚ) - (k : ℚ)) / (T : ℚ)) ∧
    batchStep env s b = schedulerPhase (optimizerPhase env s b) ∧
    (batchStep env s b).schedulerSteps = s.schedulerSteps + 1 ∧
    (optimizerPhase env s b).optimizerSteps = s.optimizerSteps + 1 ∧
    (trainRun env bs vbs E s).schedulerSteps
      = s.schedulerSteps + totalSteps bs.length E := by
  have hTQ : (0 : ℚ) < (T : ℚ) := by exact_mod_cast hT
  refine ⟨?_, ?_, ?_, rfl, rfl, rfl, trainRun_schedulerSteps env bs vbs E s⟩
  · unfold scheduledLR lrFactor
    rw [Nat.cast_zero, sub_zero, div_self hTQ.ne']
    norm_num
  · unfold scheduledLR lrFactor
    rw [sub_self, zero_div]
    norm_num
  · unfold scheduledLR lrFactor
    rw [max_eq_right]
    exact div_nonneg (sub_nonneg.mpr (by exact_mod_cast hk)) hTQ.le

/-- Witness for C9 at `T = 6` total steps (3 epochs × 2 batches), step 2. -/
theorem lr_schedule_linear_decay_and_step_order_witness :
    0 < 6 ∧ 2 ≤ 6 ∧ scheduledLR 1 6 0 = 1 :=
  ⟨by norm_num, by norm_num,
    (lr_schedule_linear_decay_and_step_order envNaN [bL0] [bL0] 3 sW bL0 1 6 2
      (by norm_num) (by norm_num)).1⟩

/-- C10: relevance labels never influence training or evaluation.  For two
runs whose batch lists agree on every tokenized query and document input but
may differ arbitrarily in labels, the entire training run produces identical
states (identical losses and parameter updates), the evaluator reports the
same number, and each individual batch step is identical.  The labels are
moved to the device (line 147) and then never read. -/
theorem relevance_labels_noninterference {P TP I V G L : Type}
    (env : TrainEnv P TP I V G) (s : LoopState P TP V) (E : ℕ)
    (bs bs' vbs vbs' : List (Batch I L))
    (hb : List.Forall₂ InputsEq bs bs') (hv : List.Forall₂ InputsEq vbs vbs') :
    trainRun env bs vbs E s = trainRun env bs' vbs' E s ∧
    (evaluateRun env s vbs).2 = (evaluateRun env s vbs').2 ∧
    (∀ b b' : Batch I L, InputsEq b b' → batchStep env s b = batchStep env s b') := by
  refine ⟨?_, ?_, fun b b' h => batchStep_congr_inputs env s h⟩
  · induction E generalizing s with
    | zero => rfl
    | succ e ih =>
        simp only [trainRun]
        rw [show ∀ x : LoopState P TP V, (evaluateRun env x vbs).1 = x from fun _ => rfl,
          show ∀ x : LoopState P TP V, (evaluateRun env x vbs').1 = x from fun _ => rfl,
          epochRun_congr_inputs env hb s]
        exact ih _
  · unfold evaluateRun
    rw [evalFold_congr_inputs env.studentForward s.studentParams hv,
      hv.length_eq]

/-- Witness for C10: two singleton batch lists differing only in the
relevance label produce identical one-epoch training runs. -/
theorem relevance_labels_noninterference_witness :
    trainRun envNaN [bL0] [bL0] 1 sW = trainRun envNaN [bL1] [bL1] 1 sW :=
  (relevance_labels_noninterference envNaN sW 1 [bL0] [bL1] [bL0] [bL1]
    (List.Forall₂.cons ⟨rfl, rfl⟩ List.Forall₂.nil)
    (List.Forall₂.cons ⟨rfl, rfl⟩ List.Forall₂.nil)).1

end DistillDualRanker
